import Mathlib

/-!
# Slate — verification of the core subsystems

Shallow embedding of the Slate repository's core logic:

* `Slate.Colors` — hex color parsing and re-emission (`src/color.rs`)
* `Slate.Reload` — the transactional deployment pipeline (`src/commands/reload.rs`)
* `Slate.Sys` — block-device tracing and stable-id resolution (`src/system.rs`)
* `Slate.SetCfg` — the dotted-key configuration mutation (`src/commands/set.rs`)

Color strings are handled by the Rust code as UTF-8 `&str` values indexed
by byte position; they are modelled as lists of Unicode code points
(`List Nat`) together with their UTF-8 byte lengths, so that the
char-boundary panic of byte slicing is representable.  Paths and keys
handled as whole strings are modelled as `String`.
-/

namespace Slate.Colors

/-- The Unicode code points of a string literal, for readable concrete
inputs (for ASCII text these coincide with the UTF-8 bytes). -/
def strCodes (s : String) : List Nat := s.toList.map Char.toNat

/-- A code point that is an ASCII hexadecimal digit (0-9, a-f, A-F). -/
def isHexDigitByte (b : Nat) : Bool :=
  (48 ≤ b && b ≤ 57) || (97 ≤ b && b ≤ 102) || (65 ≤ b && b ≤ 70)

/-- The UTF-8 encoded length, in bytes, of the character with this code
point. -/
def utf8Len (c : Nat) : Nat :=
  if c < 128 then 1 else if c < 2048 then 2 else if c < 65536 then 3 else 4

/-- `str::len`: the UTF-8 byte length of a character sequence. -/
def byteLen (s : List Nat) : Nat := (s.map utf8Len).sum

/-- Byte slicing as in `&hex[0..2]`: take the characters covering exactly
`n` bytes, returning the slice and the remainder.  `none` models the
char-boundary panic, raised when the requested byte limit falls inside a
multi-byte character or past the end of the string. -/
def takeBytes (n : Nat) (s : List Nat) : Option (List Nat × List Nat) :=
  if n = 0 then some ([], s)
  else
    match s with
    | [] => none
    | c :: rest =>
      if utf8Len c ≤ n then (takeBytes (n - utf8Len c) rest).map (fun p => (c :: p.1, p.2))
      else none

/-- `char::to_digit(16)` on a code point: its hexadecimal value, if any. -/
def toDigit16 (b : Nat) : Option Nat :=
  if 48 ≤ b && b ≤ 57 then some (b - 48)
  else if 97 ≤ b && b ≤ 102 then some (b - 87)
  else if 65 ≤ b && b ≤ 70 then some (b - 55)
  else none

/-- `u8::from_str_radix(s, 16)`: an optional leading `+` sign (`-` is not
consumed for unsigned types), then a non-empty digit string, accumulated
with an overflow check against `u8::MAX`.  `none` models `ParseIntError`. -/
def fromStrRadix16U8 (s : List Nat) : Option Nat :=
  match s with
  | [] => none
  | b :: rest =>
    let digits := if b = 43 then rest else b :: rest
    if digits.isEmpty then none
    else
      digits.foldl
        (fun acc d =>
          acc.bind fun a =>
            (toDigit16 d).bind fun v =>
              if a * 16 + v ≤ 255 then some (a * 16 + v) else none)
        (some 0)

structure Color where
  r : Nat
  g : Nat
  b : Nat
  a : Nat
deriving DecidableEq, Repr

inductive ColorError where
  | invalidFormat
  | parseError
deriving DecidableEq, Repr

/-- `Color::from_hex`: strip leading `#` characters
(`trim_start_matches('#')`), then dispatch on the remaining byte length: 6
gives RGB with alpha 255, 8 gives RGBA, anything else is `InvalidFormat`.
The two-byte channel groups are byte slices of the `&str`, evaluated left
to right with an early return on the first failing group: a slice whose
end is not a char boundary panics (the outer `none`), a group rejected by
`from_str_radix` is a `ParseError`. -/
def from_hex (s : List Nat) : Option (Except ColorError Color) :=
  let hex := s.dropWhile (fun b => b = 35)
  if byteLen hex = 6 then
    match takeBytes 2 hex with
    | none => none
    | some p1 =>
      match fromStrRadix16U8 p1.1 with
      | none => some (.error .parseError)
      | some r =>
        match takeBytes 2 p1.2 with
        | none => none
        | some p2 =>
          match fromStrRadix16U8 p2.1 with
          | none => some (.error .parseError)
          | some g =>
            match takeBytes 2 p2.2 with
            | none => none
            | some p3 =>
              match fromStrRadix16U8 p3.1 with
              | none => some (.error .parseError)
              | some b => some (.ok ⟨r, g, b, 255⟩)
  else if byteLen hex = 8 then
    match takeBytes 2 hex with
    | none => none
    | some p1 =>
      match fromStrRadix16U8 p1.1 with
      | none => some (.error .parseError)
      | some r =>
        match takeBytes 2 p1.2 with
        | none => none
        | some p2 =>
          match fromStrRadix16U8 p2.1 with
          | none => some (.error .parseError)
          | some g =>
            match takeBytes 2 p2.2 with
            | none => none
            | some p3 =>
              match fromStrRadix16U8 p3.1 with
              | none => some (.error .parseError)
              | some b =>
                match takeBytes 2 p3.2 with
                | none => none
                | some p4 =>
                  match fromStrRadix16U8 p4.1 with
                  | none => some (.error .parseError)
                  | some a => some (.ok ⟨r, g, b, a⟩)
  else some (.error .invalidFormat)

/-- Specification-side decomposition used to state C6: the two-byte groups
of the trimmed string are processed left to right; a slice whose end falls
inside a multi-byte character is a panic (`none`), the first group
rejected by `from_str_radix` aborts with `ParseError`, and otherwise the
channel values are collected in order. -/
def parseGroups : Nat → List Nat → Option (Except ColorError (List Nat))
  | 0, _ => some (.ok [])
  | n + 1, s =>
    match takeBytes 2 s with
    | none => none
    | some p =>
      match fromStrRadix16U8 p.1 with
      | none => some (.error .parseError)
      | some v =>
        match parseGroups n p.2 with
        | none => none
        | some (.error e) => some (.error e)
        | some (.ok vs) => some (.ok (v :: vs))

/-- The lowercase hex digit code point for a value below 16. -/
def hexDigitLower (d : Nat) : Nat := if d < 10 then 48 + d else 87 + d

/-- `{:02x}` on a byte: two lowercase, zero-padded hex digits. -/
def byteHex (n : Nat) : List Nat := [hexDigitLower (n / 16), hexDigitLower (n % 16)]

/-- `Color::hex`: `#rrggbb`. -/
def Color.hex (c : Color) : List Nat := 35 :: (byteHex c.r ++ byteHex c.g ++ byteHex c.b)

/-- `Color::rofi`: `#rrggbbaa`. -/
def Color.rofi (c : Color) : List Nat :=
  35 :: (byteHex c.r ++ byteHex c.g ++ byteHex c.b ++ byteHex c.a)

/-- The digit body of `Color::hyprland`: `rrggbbaa`. -/
def Color.hyprBody (c : Color) : List Nat :=
  byteHex c.r ++ byteHex c.g ++ byteHex c.b ++ byteHex c.a

/-- `Color::hyprland`: `rgba(rrggbbaa)`. -/
def Color.hyprland (c : Color) : List Nat :=
  strCodes "rgba(" ++ Color.hyprBody c ++ strCodes ")"

/-- ASCII lowercasing of a code point. -/
def toLowerByte (b : Nat) : Nat := if 65 ≤ b && b ≤ 90 then b + 32 else b

end Slate.Colors
namespace Slate.Reload

/-- `ReloadSignal` from `src/config.rs`. -/
inductive ReloadSignal where
  | hyprctl
  | hyprpaper
  | signal (s : String)
  | makoctl
  | noSignal
deriving DecidableEq, Repr

/-- `App` from `src/config.rs` (the fields `reload` reads). -/
structure App where
  name : String
  enabled : Bool
  template_path : String
  config_path : String
  reload_signal : ReloadSignal
deriving DecidableEq, Repr

/-- The dedup key built in `reload`: variant tag, with the target name for
the `Signal` variant. -/
def sigKey : ReloadSignal → String
  | .hyprctl => "hyprctl"
  | .hyprpaper => "hyprpaper"
  | .signal s => "signal:" ++ s
  | .makoctl => "makoctl"
  | .noSignal => ""

/-- The filesystem as a partial map from paths to file contents. -/
def Fs : Type := String → Option String

/-- `Path::with_extension("tmp")` on the final path component: the portion
of the file name after its last dot — provided that dot is not the leading
byte of the name — is replaced by `tmp`; with no such dot, `.tmp` is
appended. -/
def withExtTmp (p : String) : String :=
  let cs := p.toList
  let rev := cs.reverse
  let fnameRev := rev.takeWhile (fun c => c ≠ '/')
  let dirRev := rev.dropWhile (fun c => c ≠ '/')
  let afterDot := fnameRev.takeWhile (fun c => c ≠ '.')
  let newFnameRev :=
    if afterDot.length = fnameRev.length then
      -- no dot in the file name: append .tmp
      "tmp".toList.reverse ++ '.' :: fnameRev
    else if (fnameRev.drop (afterDot.length + 1)).isEmpty then
      -- the only dot leads the name (hidden file): append .tmp
      "tmp".toList.reverse ++ '.' :: fnameRev
    else
      "tmp".toList.reverse ++ '.' :: fnameRev.drop (afterDot.length + 1)
  String.mk ((newFnameRev ++ dirRev).reverse)

/-- Errors surfaced by the `reload` pipeline (each `?` site). -/
inductive Err where
  | renderFailed (tpl : String)
  | writeFailed (path : String)
  | renameFailed (temp target : String)
deriving DecidableEq, Repr

/-- Step 1 of `reload`: render every enabled app in declared order,
aborting on the first render failure. -/
def renderAll (apps : List App) (render : String → Option String) :
    Except Err (List (App × String)) :=
  match apps with
  | [] => .ok []
  | app :: rest =>
    if app.enabled then
      match render app.template_path with
      | none => .error (.renderFailed app.template_path)
      | some content => (renderAll rest render).map (fun l => (app, content) :: l)
    else renderAll rest render

/-- The final destination path of an app: `~/.config` joined with its
`config_path`. -/
def targetOf (root : String) (app : App) : String := root ++ "/" ++ app.config_path

/-- Step 2 of `reload`: write each rendered text to the temporary path next
to its destination; on a failed write, abort with the filesystem as already
modified and no rename performed.  Returns (first error, filesystem,
staged (temp, target) pairs). -/
def stageAll (root : String) (writeOk : String → Bool) (renders : List (App × String))
    (fs : Fs) : Option Err × Fs × List (String × String) :=
  match renders with
  | [] => (none, fs, [])
  | (app, content) :: rest =>
    let target := targetOf root app
    let temp := withExtTmp target
    if writeOk temp then
      let fs1 : Fs := fun p => if p = temp then some content else fs p
      let out := stageAll root writeOk rest fs1
      (out.1, out.2.1, (temp, target) :: out.2.2)
    else (some (.writeFailed temp), fs, [])

/-- Step 3 of `reload`: rename each staged temp file onto its destination in
order, aborting on the first failed rename with the filesystem as already
committed. -/
def commitAll (renameOk : String → String → Bool) (temps : List (String × String))
    (fs : Fs) : Option Err × Fs :=
  match temps with
  | [] => (none, fs)
  | (temp, target) :: rest =>
    if renameOk temp target then
      let fs1 : Fs := fun p =>
        if p = target then fs temp else if p = temp then none else fs p
      commitAll renameOk rest fs1
    else (some (.renameFailed temp target), fs)

/-- Step 4 of `reload`: walk the rendered apps in order, skip `None`
signals, and execute a signal only when its key was not already in the
executed set. -/
def dispatchLoop : List ReloadSignal → List String → List ReloadSignal
  | [], _ => []
  | s :: rest, seen =>
    if s = .noSignal then dispatchLoop rest seen
    else if sigKey s ∈ seen then dispatchLoop rest seen
    else s :: dispatchLoop rest (sigKey s :: seen)

structure RunResult where
  err : Option Err
  fs : Fs
  dispatched : List ReloadSignal

/-- The `reload` command pipeline over an abstract filesystem: render all
enabled apps, stop on dry-run, stage temporary files, rename them onto the
destinations, then fire deduplicated reload signals. -/
def reload (apps : List App) (render : String → Option String) (dryRun : Bool)
    (root : String) (writeOk : String → Bool) (renameOk : String → String → Bool)
    (fs : Fs) : RunResult :=
  match renderAll apps render with
  | .error e => ⟨some e, fs, []⟩
  | .ok renders =>
    if dryRun then ⟨none, fs, []⟩
    else
      match (stageAll root writeOk renders fs).1 with
      | some e => ⟨some e, (stageAll root writeOk renders fs).2.1, []⟩
      | none =>
        match (commitAll renameOk (stageAll root writeOk renders fs).2.2
            (stageAll root writeOk renders fs).2.1).1 with
        | some e =>
          ⟨some e, (commitAll renameOk (stageAll root writeOk renders fs).2.2
            (stageAll root writeOk renders fs).2.1).2, []⟩
        | none =>
          ⟨none, (commitAll renameOk (stageAll root writeOk renders fs).2.2
              (stageAll root writeOk renders fs).2.1).2,
            dispatchLoop (renders.map (fun r => r.1.reload_signal)) []⟩

/-- First-seen deduplication by key, stated the way the spec words it:
keep each element whose key has not occurred earlier. -/
def firstSeenDedup : List ReloadSignal → List ReloadSignal
  | [] => []
  | s :: rest => s :: firstSeenDedup (rest.filter (fun t => sigKey t ≠ sigKey s))
termination_by l => l.length
decreasing_by
  simp only [List.length_cons]
  exact Nat.lt_succ_of_le (List.length_filter_le _ _)

end Slate.Reload
namespace Slate.Sys

/-- The read-only system surface consulted by
`trace_to_physical_partition`: device-path existence and canonicalization,
membership of a name under the sysfs block directory, and the (OS-ordered)
listing of a device's `slaves` sub-directory when it exists. -/
structure SysWorld where
  devExists : String → Bool
  canon : String → Option String
  sysHas : String → Bool
  slaves : String → Option (List String)

inductive TraceErr where
  | resolveFailed (p : String)
  | invalidPath
  | sysfsMissing (dev : String)
deriving DecidableEq, Repr

/-- `Path::file_name` restricted to the shapes the tracer meets: the
component after the last slash, or none when that component is empty. -/
def fileName (p : String) : Option String :=
  let r := p.toList.reverse.takeWhile (fun c => c ≠ '/')
  if r.isEmpty then none else some (String.mk r.reverse)

/-- One unfolding of `trace_to_physical_partition`, indexed by fuel: the
Rust function recurses unconditionally on the first slave, so the model
returns `none` when the recursion has not terminated within the given
fuel.  A path that exists is canonicalized (failure is an error); a missing
path falls back to itself; a missing sysfs record is an error; a device
whose slaves directory exists and is non-empty recurses on
`/dev/<first slave>`; otherwise the device itself is returned. -/
def traceFuel (w : SysWorld) : Nat → String → Option (Except TraceErr String)
  | 0, _ => none
  | n + 1, device =>
    let real := if w.devExists device then w.canon device else some device
    match real with
    | none => some (.error (.resolveFailed device))
    | some rp =>
      match fileName rp with
      | none => some (.error .invalidPath)
      | some name =>
        if w.sysHas name then
          match w.slaves name with
          | some (slave :: _) => traceFuel w n ("/dev/" ++ slave)
          | _ => some (.ok ("/dev/" ++ name))
        else some (.error (.sysfsMissing name))

/-- A sysfs world in which `/dev/dm-0` lists itself as its own slave. -/
def cyclicWorld : SysWorld where
  devExists := fun p => p = "/dev/dm-0"
  canon := fun p => if p = "/dev/dm-0" then some "/dev/dm-0" else none
  sysHas := fun n => n = "dm-0"
  slaves := fun n => if n = "dm-0" then some ["dm-0"] else none

/-- A two-deep stack: `/dev/mapper/root` resolves to `/dev/dm-0`, whose
single slave is the physical partition `sda1`. -/
def chainWorld : SysWorld where
  devExists := fun p => p = "/dev/mapper/root" || p = "/dev/dm-0" || p = "/dev/sda1"
  canon := fun p =>
    if p = "/dev/mapper/root" then some "/dev/dm-0"
    else if p = "/dev/dm-0" then some "/dev/dm-0"
    else if p = "/dev/sda1" then some "/dev/sda1"
    else none
  sysHas := fun n => n = "dm-0" || n = "sda1"
  slaves := fun n => if n = "dm-0" then some ["sda1"] else none

/-- A host on which the traced device has no sysfs record. -/
def missingWorld : SysWorld where
  devExists := fun _ => false
  canon := fun _ => none
  sysHas := fun _ => false
  slaves := fun _ => none

end Slate.Sys
namespace Slate.Sys

inductive IdErr where
  | dirMissing
  | canonFailed (dev : String)
  | idNotFound (dev : String)
deriving DecidableEq, Repr

/-- `Path::join` of the namespace directory with a link target: an absolute
target replaces the directory, a relative one is appended. -/
def joinPath (dir t : String) : String :=
  match t.toList with
  | c :: _ => if c = '/' then t else dir ++ "/" ++ t
  | [] => dir ++ "/" ++ t

/-- The entry loop shared by `get_partuuid` and `get_uuid`: each entry is a
(filename, link target) pair, where a `none` target models a failing
`read_link`; an entry whose resolved, canonicalized target equals the
canonical device path returns its filename, anything else is skipped. -/
def scanEntries (canon : String → Option String) (dir tc device : String) :
    List (String × Option String) → Except IdErr String
  | [] => .error (.idNotFound device)
  | p :: rest =>
    match p.2 with
    | none => scanEntries canon dir tc device rest
    | some t =>
      match canon (joinPath dir t) with
      | some c => if c = tc then .ok p.1 else scanEntries canon dir tc device rest
      | none => scanEntries canon dir tc device rest

/-- `get_partuuid` / `get_uuid`: fail if the namespace directory is absent,
canonicalize the queried device, then scan the directory entries. -/
def resolveStableId (dirExists : Bool) (canon : String → Option String)
    (entries : List (String × Option String)) (dir device : String) : Except IdErr String :=
  if !dirExists then .error .dirMissing
  else
    match canon device with
    | none => .error (.canonFailed device)
    | some tc => scanEntries canon dir tc device entries

/-- `get_partuuid` is the scan over `/dev/disk/by-partuuid`. -/
def get_partuuid (dirExists : Bool) (canon : String → Option String)
    (entries : List (String × Option String)) (device : String) : Except IdErr String :=
  resolveStableId dirExists canon entries "/dev/disk/by-partuuid" device

/-- `get_uuid` is the scan over `/dev/disk/by-uuid`. -/
def get_uuid (dirExists : Bool) (canon : String → Option String)
    (entries : List (String × Option String)) (device : String) : Except IdErr String :=
  resolveStableId dirExists canon entries "/dev/disk/by-uuid" device

end Slate.Sys
namespace Slate.SetCfg

/-- `Palette` from `src/config.rs`. -/
structure Palette where
  mode : String
  bg_void : String
  bg_void_transparent : String
  bg_surface : String
  bg_overlay : String
  foreground : String
  foreground_dim : String
  accent : String
  accent_bright : String
deriving DecidableEq, Repr

/-- `Hardware` from `src/config.rs`; the float `monitor_scale` field is kept
abstract in the `Scale` type parameter together with its parser. -/
structure Hardware (Scale : Type) where
  monitor_scale : Scale
  root_uuid : String
  font_family : String
  wallpaper : String

/-- `SlateConfig` from `src/config.rs`. -/
structure SlateConfig (Scale : Type) where
  palette : Palette
  hardware : Hardware Scale
  apps : List Slate.Reload.App

inductive SetErr where
  | invalidMode
  | scaleParseFailed
  | unknownKey (key : String) (valid : List String)

/-- The keys enumerated in the `Unknown configuration key` bail message of
`src/commands/set.rs`, in its order. -/
def listedValidKeys : List String :=
  ["palette.mode", "palette.bg_void", "palette.bg_surface", "palette.bg_overlay",
   "palette.foreground", "palette.foreground_dim", "palette.accent", "palette.accent_bright",
   "hardware.monitor_scale", "hardware.font_family", "hardware.root_uuid", "hardware.wallpaper"]

/-- Rust `str::split('.')` collected to a vector. -/
def splitDots (s : String) : List String := (s.toList.splitOn '.').map String.mk

/-- The key dispatch of `set`: the match over the dotted key's parts,
mutating exactly one field, with `palette.mode` restricted to `manual` or
`matugen`, `hardware.monitor_scale` going through the numeric parser, and
every other key rejected with the message listing `listedValidKeys`. -/
def setKey {Scale : Type} (parseScale : String → Option Scale)
    (config : SlateConfig Scale) (key value : String) : Except SetErr (SlateConfig Scale) :=
  match splitDots key with
  | ["palette", "mode"] =>
    if value ≠ "manual" ∧ value ≠ "matugen" then .error .invalidMode
    else .ok { config with palette := { config.palette with mode := value } }
  | ["palette", "bg_void"] =>
    .ok { config with palette := { config.palette with bg_void := value } }
  | ["palette", "bg_void_transparent"] =>
    .ok { config with palette := { config.palette with bg_void_transparent := value } }
  | ["palette", "bg_surface"] =>
    .ok { config with palette := { config.palette with bg_surface := value } }
  | ["palette", "bg_overlay"] =>
    .ok { config with palette := { config.palette with bg_overlay := value } }
  | ["palette", "foreground"] =>
    .ok { config with palette := { config.palette with foreground := value } }
  | ["palette", "foreground_dim"] =>
    .ok { config with palette := { config.palette with foreground_dim := value } }
  | ["palette", "accent"] =>
    .ok { config with palette := { config.palette with accent := value } }
  | ["palette", "accent_bright"] =>
    .ok { config with palette := { config.palette with accent_bright := value } }
  | ["hardware", "monitor_scale"] =>
    match parseScale value with
    | none => .error .scaleParseFailed
    | some s => .ok { config with hardware := { config.hardware with monitor_scale := s } }
  | ["hardware", "font_family"] =>
    .ok { config with hardware := { config.hardware with font_family := value } }
  | ["hardware", "root_uuid"] =>
    .ok { config with hardware := { config.hardware with root_uuid := value } }
  | ["hardware", "wallpaper"] =>
    .ok { config with hardware := { config.hardware with wallpaper := value } }
  | _ => .error (.unknownKey key listedValidKeys)

inductive SetCmdErr where
  | loadFailed
  | keyErr (e : SetErr)
  | reloadFailed

/-- The filesystem as seen by the `set` command. -/
def Fs : Type := String → Option String

/-- The `set` command pipeline: load the configuration from disk, apply the
key dispatch — bailing out before any write on failure — then stop on
dry-run, otherwise save and trigger a reload.  Loading, saving and the
chained reload are abstract collaborators. -/
def setCmd {Scale : Type} (parseScale : String → Option Scale)
    (load : Fs → Option (SlateConfig Scale)) (save : SlateConfig Scale → Fs → Fs)
    (doReload : Fs → Option SetCmdErr × Fs)
    (fs : Fs) (key value : String) (dryRun : Bool) : Option SetCmdErr × Fs :=
  match load fs with
  | none => (some .loadFailed, fs)
  | some config =>
    match setKey parseScale config key value with
    | .error e => (some (.keyErr e), fs)
    | .ok config2 =>
      if dryRun then (none, fs)
      else doReload (save config2 fs)

/-- A concrete configuration for evaluating the `set` dispatch. -/
def sampleConfig : SlateConfig Unit :=
  ⟨⟨"manual", "#0b0d12", "#0b0d12ee", "#14161c", "#1a1d26", "#c5cad6", "#555b6e",
    "#6c8cb8", "#7aa2cf"⟩, ⟨(), "uuid-1", "Iosevka", "~/wall.png"⟩, []⟩

end Slate.SetCfg
namespace Slate.Colors

lemma hexDigit_spec {b : Nat} (h : isHexDigitByte b = true) :
    ∃ d, toDigit16 b = some d ∧ d < 16 ∧ hexDigitLower d = toLowerByte b := by
  unfold isHexDigitByte at h
  simp only [Bool.or_eq_true, Bool.and_eq_true, decide_eq_true_eq] at h
  rcases h with (⟨h1, h2⟩ | ⟨h1, h2⟩) | ⟨h1, h2⟩ <;> interval_cases b <;> decide

lemma hexLower_digit {d : Nat} (h : d < 16) :
    toDigit16 (hexDigitLower d) = some d ∧ isHexDigitByte (hexDigitLower d) = true := by
  interval_cases d <;> decide

lemma hexDigit_utf8 {b : Nat} (h : isHexDigitByte b = true) : utf8Len b = 1 := by
  have hlt : b < 128 := by
    unfold isHexDigitByte at h
    simp only [Bool.or_eq_true, Bool.and_eq_true, decide_eq_true_eq] at h
    omega
  unfold utf8Len
  rw [if_pos hlt]

lemma toDigit16_ne_plus {b d : Nat} (h : toDigit16 b = some d) : b ≠ 43 := by
  intro e
  subst e
  simp [toDigit16] at h

lemma fromStr_pair {b1 b2 d1 d2 : Nat} (h1 : toDigit16 b1 = some d1)
    (h2 : toDigit16 b2 = some d2) (l1 : d1 < 16) (l2 : d2 < 16) :
    fromStrRadix16U8 [b1, b2] = some (16 * d1 + d2) := by
  have hb1 := toDigit16_ne_plus h1
  have e1 : 0 * 16 + d1 = d1 := by omega
  have c1 : d1 ≤ 255 := by omega
  have c2 : d1 * 16 + d2 ≤ 255 := by omega
  have e2 : d1 * 16 + d2 = 16 * d1 + d2 := by omega
  have c3 : 16 * d1 + d2 ≤ 255 := by omega
  simp [fromStrRadix16U8, hb1, h1, h2, e1, c1, c2, e2, c3]

lemma byteHex_parse {n : Nat} (h : n ≤ 255) :
    fromStrRadix16U8 (byteHex n) = some n := by
  have l1 : n / 16 < 16 := by omega
  have l2 : n % 16 < 16 := by omega
  have d1 := (hexLower_digit l1).1
  have d2 := (hexLower_digit l2).1
  have := fromStr_pair d1 d2 l1 l2
  simp only [byteHex] at *
  rw [this]
  congr 1
  omega

lemma pair_round {b1 b2 : Nat} (h1 : isHexDigitByte b1 = true) (h2 : isHexDigitByte b2 = true) :
    ∃ v, fromStrRadix16U8 [b1, b2] = some v ∧ v ≤ 255 ∧
      byteHex v = [toLowerByte b1, toLowerByte b2] := by
  obtain ⟨d1, hd1, l1, e1⟩ := hexDigit_spec h1
  obtain ⟨d2, hd2, l2, e2⟩ := hexDigit_spec h2
  refine ⟨16 * d1 + d2, fromStr_pair hd1 hd2 l1 l2, by omega, ?_⟩
  have q1 : (16 * d1 + d2) / 16 = d1 := by omega
  have q2 : (16 * d1 + d2) % 16 = d2 := by omega
  simp [byteHex, q1, q2, e1, e2]

lemma byteHex_allHex {n : Nat} (h : n ≤ 255) :
    ∀ b ∈ byteHex n, isHexDigitByte b = true := by
  have l1 : n / 16 < 16 := by omega
  have l2 : n % 16 < 16 := by omega
  intro b hb
  simp only [byteHex, List.mem_cons, List.mem_singleton, List.not_mem_nil, or_false] at hb
  rcases hb with rfl | rfl
  · exact (hexLower_digit l1).2
  · exact (hexLower_digit l2).2

lemma dropWhile_hash {pre ds : List Nat} (hpre : pre = [] ∨ pre = [35])
    (hne : ds ≠ []) (hd : ∀ b ∈ ds, isHexDigitByte b = true) :
    (pre ++ ds).dropWhile (fun b => b = 35) = ds := by
  have hds : ds.dropWhile (fun b => b = 35) = ds := by
    cases ds with
    | nil => rfl
    | cons b t =>
      have hb := hd b (List.mem_cons_self b t)
      have : b ≠ 35 := by
        intro e; subst e; simp [isHexDigitByte] at hb
      simp [List.dropWhile, this]
  rcases hpre with rfl | rfl
  · simpa using hds
  · simpa [List.dropWhile] using hds

lemma takeBytes_zero (s : List Nat) : takeBytes 0 s = some ([], s) := by
  rw [takeBytes.eq_def]
  simp

lemma takeBytes_pair {a b : Nat} (ha : utf8Len a = 1) (hb : utf8Len b = 1) (rest : List Nat) :
    takeBytes 2 (a :: b :: rest) = some ([a, b], rest) := by
  simp [takeBytes, ha, hb, takeBytes_zero]

end Slate.Colors
namespace Slate.Colors

lemma exists_len_three {α : Type} {ds : List α} (h : ds.length = 3) :
    ∃ a b c, ds = [a, b, c] := by
  rcases ds with _ | ⟨a, _ | ⟨b, _ | ⟨c, _ | ⟨d, t⟩⟩⟩⟩ <;>
      simp only [List.length_cons, List.length_nil] at h <;>
      first
        | omega
        | exact ⟨a, b, c, rfl⟩

lemma exists_len_four {α : Type} {ds : List α} (h : ds.length = 4) :
    ∃ a b c d, ds = [a, b, c, d] := by
  rcases ds with _ | ⟨a, _ | ⟨b, _ | ⟨c, _ | ⟨d, _ | ⟨e, t⟩⟩⟩⟩⟩ <;>
      simp only [List.length_cons, List.length_nil] at h <;>
      first
        | omega
        | exact ⟨a, b, c, d, rfl⟩

lemma exists_len_six {α : Type} {ds : List α} (h : ds.length = 6) :
    ∃ a b c d e f, ds = [a, b, c, d, e, f] := by
  rcases ds with _ | ⟨a, _ | ⟨b, _ | ⟨c, _ | ⟨d, _ | ⟨e, _ | ⟨f, _ | ⟨g, t⟩⟩⟩⟩⟩⟩⟩ <;>
      simp only [List.length_cons, List.length_nil] at h <;>
      first
        | omega
        | exact ⟨a, b, c, d, e, f, rfl⟩

lemma exists_len_eight {α : Type} {ds : List α} (h : ds.length = 8) :
    ∃ a b c d e f g k, ds = [a, b, c, d, e, f, g, k] := by
  rcases ds with _ | ⟨a, _ | ⟨b, _ | ⟨c, _ | ⟨d, _ | ⟨e, _ | ⟨f, _ | ⟨g, _ | ⟨k, _ | ⟨m, t⟩⟩⟩⟩⟩⟩⟩⟩⟩ <;>
      simp only [List.length_cons, List.length_nil] at h <;>
      first
        | omega
        | exact ⟨a, b, c, d, e, f, g, k, rfl⟩

lemma from_hex_ok_six {b1 b2 b3 b4 b5 b6 v1 v2 v3 : Nat} {sl : List Nat}
    (hdrop : sl.dropWhile (fun b => b = 35) = [b1, b2, b3, b4, b5, b6])
    (hh1 : isHexDigitByte b1 = true) (hh2 : isHexDigitByte b2 = true)
    (hh3 : isHexDigitByte b3 = true) (hh4 : isHexDigitByte b4 = true)
    (hh5 : isHexDigitByte b5 = true) (hh6 : isHexDigitByte b6 = true)
    (e1 : fromStrRadix16U8 [b1, b2] = some v1)
    (e2 : fromStrRadix16U8 [b3, b4] = some v2)
    (e3 : fromStrRadix16U8 [b5, b6] = some v3) :
    from_hex sl = some (.ok ⟨v1, v2, v3, 255⟩) := by
  have u1 := hexDigit_utf8 hh1
  have u2 := hexDigit_utf8 hh2
  have u3 := hexDigit_utf8 hh3
  have u4 := hexDigit_utf8 hh4
  have u5 := hexDigit_utf8 hh5
  have u6 := hexDigit_utf8 hh6
  have hby : byteLen [b1, b2, b3, b4, b5, b6] = 6 := by
    simp [byteLen, u1, u2, u3, u4, u5, u6]
  have t1 := takeBytes_pair u1 u2 [b3, b4, b5, b6]
  have t2 := takeBytes_pair u3 u4 [b5, b6]
  have t3 := takeBytes_pair u5 u6 []
  simp only [from_hex, hdrop]
  rw [if_pos hby]
  simp [t1, t2, t3, e1, e2, e3]

lemma from_hex_ok_eight {b1 b2 b3 b4 b5 b6 b7 b8 v1 v2 v3 v4 : Nat} {sl : List Nat}
    (hdrop : sl.dropWhile (fun b => b = 35) = [b1, b2, b3, b4, b5, b6, b7, b8])
    (hh1 : isHexDigitByte b1 = true) (hh2 : isHexDigitByte b2 = true)
    (hh3 : isHexDigitByte b3 = true) (hh4 : isHexDigitByte b4 = true)
    (hh5 : isHexDigitByte b5 = true) (hh6 : isHexDigitByte b6 = true)
    (hh7 : isHexDigitByte b7 = true) (hh8 : isHexDigitByte b8 = true)
    (e1 : fromStrRadix16U8 [b1, b2] = some v1)
    (e2 : fromStrRadix16U8 [b3, b4] = some v2)
    (e3 : fromStrRadix16U8 [b5, b6] = some v3)
    (e4 : fromStrRadix16U8 [b7, b8] = some v4) :
    from_hex sl = some (.ok ⟨v1, v2, v3, v4⟩) := by
  have u1 := hexDigit_utf8 hh1
  have u2 := hexDigit_utf8 hh2
  have u3 := hexDigit_utf8 hh3
  have u4 := hexDigit_utf8 hh4
  have u5 := hexDigit_utf8 hh5
  have u6 := hexDigit_utf8 hh6
  have u7 := hexDigit_utf8 hh7
  have u8 := hexDigit_utf8 hh8
  have hby : byteLen [b1, b2, b3, b4, b5, b6, b7, b8] = 8 := by
    simp [byteLen, u1, u2, u3, u4, u5, u6, u7, u8]
  have hby6 : byteLen [b1, b2, b3, b4, b5, b6, b7, b8] ≠ 6 := by omega
  have t1 := takeBytes_pair u1 u2 [b3, b4, b5, b6, b7, b8]
  have t2 := takeBytes_pair u3 u4 [b5, b6, b7, b8]
  have t3 := takeBytes_pair u5 u6 [b7, b8]
  have t4 := takeBytes_pair u7 u8 []
  simp only [from_hex, hdrop]
  rw [if_neg hby6, if_pos hby]
  simp [t1, t2, t3, t4, e1, e2, e3, e4]

end Slate.Colors
namespace Slate.Colors

/-- C7: for every valid 6-hex-digit color string (with or without a leading
hash), parsing succeeds — without panicking — and re-emitting the bare-hex
form yields a hash followed by the same six digits lowercased; for every
valid 8-digit string, the parsed color — its alpha byte included —
round-trips unchanged through the RGBA-preserving output forms
`Color.rofi` and the digit body of `Color.hyprland`. -/
theorem from_hex_roundTrip (pre ds : List Nat) (hpre : pre = [] ∨ pre = [35])
    (hhex : ∀ b ∈ ds, isHexDigitByte b = true) :
    (ds.length = 6 → ∃ c, from_hex (pre ++ ds) = some (.ok c) ∧
        Color.hex c = 35 :: ds.map toLowerByte) ∧
    (ds.length = 8 → ∃ c, from_hex (pre ++ ds) = some (.ok c) ∧
        from_hex (Color.rofi c) = some (.ok c) ∧
        Color.hyprland c = strCodes "rgba(" ++ Color.hyprBody c ++ strCodes ")" ∧
        from_hex (Color.hyprBody c) = some (.ok c)) := by
  constructor
  · intro hlen
    have hne : ds ≠ [] := by intro e; subst e; simp at hlen
    have hdrop := dropWhile_hash hpre hne hhex
    obtain ⟨b1, b2, b3, b4, b5, b6, rfl⟩ := exists_len_six hlen
    have h1 := hhex b1 (by simp)
    have h2 := hhex b2 (by simp)
    have h3 := hhex b3 (by simp)
    have h4 := hhex b4 (by simp)
    have h5 := hhex b5 (by simp)
    have h6 := hhex b6 (by simp)
    obtain ⟨v1, e1, le1, bh1⟩ := pair_round h1 h2
    obtain ⟨v2, e2, le2, bh2⟩ := pair_round h3 h4
    obtain ⟨v3, e3, le3, bh3⟩ := pair_round h5 h6
    refine ⟨⟨v1, v2, v3, 255⟩,
      from_hex_ok_six hdrop h1 h2 h3 h4 h5 h6 e1 e2 e3, ?_⟩
    simp [Color.hex, bh1, bh2, bh3]
  · intro hlen
    have hne : ds ≠ [] := by intro e; subst e; simp at hlen
    have hdrop := dropWhile_hash hpre hne hhex
    obtain ⟨b1, b2, b3, b4, b5, b6, b7, b8, rfl⟩ := exists_len_eight hlen
    have h1 := hhex b1 (by simp)
    have h2 := hhex b2 (by simp)
    have h3 := hhex b3 (by simp)
    have h4 := hhex b4 (by simp)
    have h5 := hhex b5 (by simp)
    have h6 := hhex b6 (by simp)
    have h7 := hhex b7 (by simp)
    have h8 := hhex b8 (by simp)
    obtain ⟨v1, e1, le1, bh1⟩ := pair_round h1 h2
    obtain ⟨v2, e2, le2, bh2⟩ := pair_round h3 h4
    obtain ⟨v3, e3, le3, bh3⟩ := pair_round h5 h6
    obtain ⟨v4, e4, le4, bh4⟩ := pair_round h7 h8
    have p1 := byteHex_parse le1
    have p2 := byteHex_parse le2
    have p3 := byteHex_parse le3
    have p4 := byteHex_parse le4
    have hq1a : isHexDigitByte (hexDigitLower (v1 / 16)) = true :=
      (hexLower_digit (show v1 / 16 < 16 by omega)).2
    have hq1b : isHexDigitByte (hexDigitLower (v1 % 16)) = true :=
      (hexLower_digit (show v1 % 16 < 16 by omega)).2
    have hq2a : isHexDigitByte (hexDigitLower (v2 / 16)) = true :=
      (hexLower_digit (show v2 / 16 < 16 by omega)).2
    have hq2b : isHexDigitByte (hexDigitLower (v2 % 16)) = true :=
      (hexLower_digit (show v2 % 16 < 16 by omega)).2
    have hq3a : isHexDigitByte (hexDigitLower (v3 / 16)) = true :=
      (hexLower_digit (show v3 / 16 < 16 by omega)).2
    have hq3b : isHexDigitByte (hexDigitLower (v3 % 16)) = true :=
      (hexLower_digit (show v3 % 16 < 16 by omega)).2
    have hq4a : isHexDigitByte (hexDigitLower (v4 / 16)) = true :=
      (hexLower_digit (show v4 / 16 < 16 by omega)).2
    have hq4b : isHexDigitByte (hexDigitLower (v4 % 16)) = true :=
      (hexLower_digit (show v4 % 16 < 16 by omega)).2
    refine ⟨⟨v1, v2, v3, v4⟩,
      from_hex_ok_eight hdrop h1 h2 h3 h4 h5 h6 h7 h8 e1 e2 e3 e4, ?_, rfl, ?_⟩
    · have hro : (Color.rofi ⟨v1, v2, v3, v4⟩).dropWhile (fun b => b = 35) =
          byteHex v1 ++ byteHex v2 ++ byteHex v3 ++ byteHex v4 := by
        have := @dropWhile_hash [35]
          (byteHex v1 ++ byteHex v2 ++ byteHex v3 ++ byteHex v4) (Or.inr rfl)
          (by simp [byteHex])
          (by
            intro b hb
            simp only [List.mem_append] at hb
            rcases hb with ((hb | hb) | hb) | hb
            · exact byteHex_allHex le1 b hb
            · exact byteHex_allHex le2 b hb
            · exact byteHex_allHex le3 b hb
            · exact byteHex_allHex le4 b hb)
        simpa [Color.rofi] using this
      have hsplit : byteHex v1 ++ byteHex v2 ++ byteHex v3 ++ byteHex v4 =
          [hexDigitLower (v1 / 16), hexDigitLower (v1 % 16), hexDigitLower (v2 / 16),
           hexDigitLower (v2 % 16), hexDigitLower (v3 / 16), hexDigitLower (v3 % 16),
           hexDigitLower (v4 / 16), hexDigitLower (v4 % 16)] := by
        simp [byteHex]
      rw [hsplit] at hro
      have q1 : fromStrRadix16U8 [hexDigitLower (v1 / 16), hexDigitLower (v1 % 16)] = some v1 := by
        simpa [byteHex] using p1
      have q2 : fromStrRadix16U8 [hexDigitLower (v2 / 16), hexDigitLower (v2 % 16)] = some v2 := by
        simpa [byteHex] using p2
      have q3 : fromStrRadix16U8 [hexDigitLower (v3 / 16), hexDigitLower (v3 % 16)] = some v3 := by
        simpa [byteHex] using p3
      have q4 : fromStrRadix16U8 [hexDigitLower (v4 / 16), hexDigitLower (v4 % 16)] = some v4 := by
        simpa [byteHex] using p4
      exact from_hex_ok_eight hro hq1a hq1b hq2a hq2b hq3a hq3b hq4a hq4b q1 q2 q3 q4
    · have hro : (Color.hyprBody ⟨v1, v2, v3, v4⟩).dropWhile (fun b => b = 35) =
          byteHex v1 ++ byteHex v2 ++ byteHex v3 ++ byteHex v4 := by
        have := @dropWhile_hash []
          (byteHex v1 ++ byteHex v2 ++ byteHex v3 ++ byteHex v4) (Or.inl rfl)
          (by simp [byteHex])
          (by
            intro b hb
            simp only [List.mem_append] at hb
            rcases hb with ((hb | hb) | hb) | hb
            · exact byteHex_allHex le1 b hb
            · exact byteHex_allHex le2 b hb
            · exact byteHex_allHex le3 b hb
            · exact byteHex_allHex le4 b hb)
        simpa [Color.hyprBody] using this
      have hsplit : byteHex v1 ++ byteHex v2 ++ byteHex v3 ++ byteHex v4 =
          [hexDigitLower (v1 / 16), hexDigitLower (v1 % 16), hexDigitLower (v2 / 16),
           hexDigitLower (v2 % 16), hexDigitLower (v3 / 16), hexDigitLower (v3 % 16),
           hexDigitLower (v4 / 16), hexDigitLower (v4 % 16)] := by
        simp [byteHex]
      rw [hsplit] at hro
      have q1 : fromStrRadix16U8 [hexDigitLower (v1 / 16), hexDigitLower (v1 % 16)] = some v1 := by
        simpa [byteHex] using p1
      have q2 : fromStrRadix16U8 [hexDigitLower (v2 / 16), hexDigitLower (v2 % 16)] = some v2 := by
        simpa [byteHex] using p2
      have q3 : fromStrRadix16U8 [hexDigitLower (v3 / 16), hexDigitLower (v3 % 16)] = some v3 := by
        simpa [byteHex] using p3
      have q4 : fromStrRadix16U8 [hexDigitLower (v4 / 16), hexDigitLower (v4 % 16)] = some v4 := by
        simpa [byteHex] using p4
      exact from_hex_ok_eight hro hq1a hq1b hq2a hq2b hq3a hq3b hq4a hq4b q1 q2 q3 q4

theorem from_hex_roundTrip_witness :
    (∃ c, from_hex ([35] ++ strCodes "1A2b3C") = some (.ok c) ∧
        Color.hex c = 35 :: (strCodes "1A2b3C").map toLowerByte) ∧
    (∃ c, from_hex ([] ++ strCodes "aabbccdd") = some (.ok c) ∧
        from_hex (Color.rofi c) = some (.ok c) ∧
        Color.hyprland c = strCodes "rgba(" ++ Color.hyprBody c ++ strCodes ")" ∧
        from_hex (Color.hyprBody c) = some (.ok c)) :=
  ⟨(from_hex_roundTrip [35] (strCodes "1A2b3C") (Or.inr rfl) (by decide)).1 rfl,
   (from_hex_roundTrip [] (strCodes "aabbccdd") (Or.inl rfl) (by decide)).2 rfl⟩

end Slate.Colors
namespace Slate.Colors

lemma parseGroups_ok_length :
    ∀ {n : Nat} {l : List Nat} {vs : List Nat},
      parseGroups n l = some (.ok vs) → vs.length = n := by
  intro n
  induction n with
  | zero =>
    intro l vs h
    rw [parseGroups] at h
    simp only [Option.some.injEq, Except.ok.injEq] at h
    subst h
    rfl
  | succ m ih =>
    intro l vs h
    rw [parseGroups] at h
    split at h
    · exact absurd h (by simp)
    · split at h
      · exact absurd h (by simp)
      · split at h
        · exact absurd h (by simp)
        · exact absurd h (by simp)
        · next vs2 heq =>
          simp only [Option.some.injEq, Except.ok.injEq] at h
          subst h
          simp [ih heq]

lemma from_hex_six_cases {s : List Nat}
    (h6 : byteLen (s.dropWhile (fun b => b = 35)) = 6) :
    from_hex s =
      (match parseGroups 3 (s.dropWhile (fun b => b = 35)) with
        | none => none
        | some (.error e) => some (.error e)
        | some (.ok [v1, v2, v3]) => some (.ok ⟨v1, v2, v3, 255⟩)
        | some (.ok _) => none) := by
  have hpg : parseGroups 3 (s.dropWhile (fun b => b = 35)) =
      parseGroups (2 + 1) (s.dropWhile (fun b => b = 35)) := rfl
  simp only [from_hex]
  rw [if_pos h6, hpg]
  cases ht1 : takeBytes 2 (s.dropWhile (fun b => b = 35)) with
  | none => simp [parseGroups, ht1]
  | some p1 =>
    cases he1 : fromStrRadix16U8 p1.1 with
    | none => simp [parseGroups, ht1, he1]
    | some r =>
      cases ht2 : takeBytes 2 p1.2 with
      | none => simp [parseGroups, ht1, he1, ht2]
      | some p2 =>
        cases he2 : fromStrRadix16U8 p2.1 with
        | none => simp [parseGroups, ht1, he1, ht2, he2]
        | some g =>
          cases ht3 : takeBytes 2 p2.2 with
          | none => simp [parseGroups, ht1, he1, ht2, he2, ht3]
          | some p3 =>
            cases he3 : fromStrRadix16U8 p3.1 with
            | none => simp [parseGroups, ht1, he1, ht2, he2, ht3, he3]
            | some b => simp [parseGroups, ht1, he1, ht2, he2, ht3, he3]

lemma from_hex_eight_cases {s : List Nat}
    (h8 : byteLen (s.dropWhile (fun b => b = 35)) = 8) :
    from_hex s =
      (match parseGroups 4 (s.dropWhile (fun b => b = 35)) with
        | none => none
        | some (.error e) => some (.error e)
        | some (.ok [v1, v2, v3, v4]) => some (.ok ⟨v1, v2, v3, v4⟩)
        | some (.ok _) => none) := by
  have hpg : parseGroups 4 (s.dropWhile (fun b => b = 35)) =
      parseGroups (3 + 1) (s.dropWhile (fun b => b = 35)) := rfl
  have h6 : byteLen (s.dropWhile (fun b => b = 35)) ≠ 6 := by omega
  simp only [from_hex]
  rw [if_neg h6, if_pos h8, hpg]
  cases ht1 : takeBytes 2 (s.dropWhile (fun b => b = 35)) with
  | none => simp [parseGroups, ht1]
  | some p1 =>
    cases he1 : fromStrRadix16U8 p1.1 with
    | none => simp [parseGroups, ht1, he1]
    | some r =>
      cases ht2 : takeBytes 2 p1.2 with
      | none => simp [parseGroups, ht1, he1, ht2]
      | some p2 =>
        cases he2 : fromStrRadix16U8 p2.1 with
        | none => simp [parseGroups, ht1, he1, ht2, he2]
        | some g =>
          cases ht3 : takeBytes 2 p2.2 with
          | none => simp [parseGroups, ht1, he1, ht2, he2, ht3]
          | some p3 =>
            cases he3 : fromStrRadix16U8 p3.1 with
            | none => simp [parseGroups, ht1, he1, ht2, he2, ht3, he3]
            | some b =>
              cases ht4 : takeBytes 2 p3.2 with
              | none => simp [parseGroups, ht1, he1, ht2, he2, ht3, he3, ht4]
              | some p4 =>
                cases he4 : fromStrRadix16U8 p4.1 with
                | none => simp [parseGroups, ht1, he1, ht2, he2, ht3, he3, ht4, he4]
                | some a => simp [parseGroups, ht1, he1, ht2, he2, ht3, he3, ht4, he4]

/-- C6 (amended): after stripping all leading hash characters, a remaining
UTF-8 byte length other than 6 or 8 fails with InvalidFormat; at byte
length 6 or 8 the behaviour follows the left-to-right group decomposition
`parseGroups`: a two-byte slice whose end falls inside a multi-byte
character panics, the first group rejected by the semantics of
`u8::from_str_radix` (which also accepts a leading plus sign) aborts with
ParseError, and when all groups parse the call succeeds, a 6-byte input
carrying alpha 255. -/
theorem from_hex_groups (s hx : List Nat) (hh : s.dropWhile (fun b => b = 35) = hx) :
    (byteLen hx ≠ 6 → byteLen hx ≠ 8 → from_hex s = some (.error .invalidFormat)) ∧
    (byteLen hx = 6 →
      (parseGroups 3 hx = none → from_hex s = none) ∧
      (parseGroups 3 hx = some (.error .parseError) →
        from_hex s = some (.error .parseError)) ∧
      (∀ vs, parseGroups 3 hx = some (.ok vs) →
        ∃ v1 v2 v3, vs = [v1, v2, v3] ∧ from_hex s = some (.ok ⟨v1, v2, v3, 255⟩))) ∧
    (byteLen hx = 8 →
      (parseGroups 4 hx = none → from_hex s = none) ∧
      (parseGroups 4 hx = some (.error .parseError) →
        from_hex s = some (.error .parseError)) ∧
      (∀ vs, parseGroups 4 hx = some (.ok vs) →
        ∃ v1 v2 v3 v4, vs = [v1, v2, v3, v4] ∧
          from_hex s = some (.ok ⟨v1, v2, v3, v4⟩))) := by
  subst hh
  refine ⟨?_, ?_, ?_⟩
  · intro h6 h8
    simp only [from_hex]
    rw [if_neg h6, if_neg h8]
  · intro h6
    have hc := from_hex_six_cases h6
    refine ⟨fun hp => by rw [hc, hp], fun hp => by rw [hc, hp], ?_⟩
    intro vs hp
    obtain ⟨v1, v2, v3, rfl⟩ := exists_len_three (parseGroups_ok_length hp)
    exact ⟨v1, v2, v3, rfl, by rw [hc, hp]⟩
  · intro h8
    have hc := from_hex_eight_cases h8
    refine ⟨fun hp => by rw [hc, hp], fun hp => by rw [hc, hp], ?_⟩
    intro vs hp
    obtain ⟨v1, v2, v3, v4, rfl⟩ := exists_len_four (parseGroups_ok_length hp)
    exact ⟨v1, v2, v3, v4, rfl, by rw [hc, hp]⟩

theorem from_hex_groups_witness :
    from_hex (strCodes "#12xy56") = some (.error .parseError) ∧
    from_hex (strCodes "#1a2b3c") = some (.ok ⟨26, 43, 60, 255⟩) :=
  ⟨(((from_hex_groups (strCodes "#12xy56") (strCodes "12xy56") rfl).2.1 rfl).2.1 rfl),
   (by
    obtain ⟨v1, v2, v3, hvs, hfh⟩ :=
      ((from_hex_groups (strCodes "#1a2b3c") (strCodes "1a2b3c") rfl).2.1 rfl).2.2
        [26, 43, 60] rfl
    simp only [List.cons.injEq, and_true] at hvs
    obtain ⟨rfl, rfl, rfl⟩ := hvs
    exact hfh)⟩

/-- C6 counterexample: two inputs on which the claim's predicted outcome
differs from the code.  First, `##+12345` parses successfully to
(1, 35, 69, 255), although after stripping a single leading hash the
remaining length is 7 (the claim then demands InvalidFormat), and after
stripping all leading hashes the remaining 6 bytes contain the
non-hex-digit 43 (a plus sign; the claim then demands ParseError).
Second, the claim demands ParseError for `aΩ345` — trimmed byte length 6
with the non-hex-digit Ω — but the code panics on the char-boundary
violation of the slice `&hex[0..2]` (the model's `none`). -/
theorem from_hex_claim6_counterexample :
    from_hex (strCodes "##+12345") = some (.ok ⟨1, 35, 69, 255⟩) ∧
    byteLen ((strCodes "##+12345").dropWhile (fun b => b = 35)) = 6 ∧
    43 ∈ (strCodes "##+12345").dropWhile (fun b => b = 35) ∧
    isHexDigitByte 43 = false ∧
    (strCodes "##+12345").drop 1 = strCodes "#+12345" ∧
    byteLen (strCodes "#+12345") = 7 ∧
    from_hex (strCodes "aΩ345") = none ∧
    byteLen ((strCodes "aΩ345").dropWhile (fun b => b = 35)) = 6 ∧
    937 ∈ (strCodes "aΩ345").dropWhile (fun b => b = 35) ∧
    isHexDigitByte 937 = false := by
  refine ⟨rfl, rfl, ?_, rfl, rfl, rfl, rfl, rfl, ?_, rfl⟩ <;> decide

end Slate.Colors
namespace Slate.Reload

lemma renderAll_err {apps : List App} {render : String → Option String}
    (h : ∃ app ∈ apps, app.enabled = true ∧ render app.template_path = none) :
    ∃ tpl, renderAll apps render = .error (.renderFailed tpl) := by
  induction apps with
  | nil => simp at h
  | cons app rest ih =>
    rcases h with ⟨a, ha, hen, hr⟩
    rcases List.mem_cons.mp ha with rfl | hmem
    · rw [renderAll, if_pos hen]
      cases hre : render a.template_path with
      | none => exact ⟨a.template_path, rfl⟩
      | some c =>
        rw [hre] at hr
        exact absurd hr (by simp)
    · by_cases he : app.enabled = true
      · rw [renderAll, if_pos he]
        cases hre : render app.template_path with
        | none => exact ⟨app.template_path, rfl⟩
        | some c =>
          obtain ⟨tpl, htpl⟩ := ih ⟨a, hmem, hen, hr⟩
          exact ⟨tpl, by rw [htpl]; rfl⟩
      · rw [renderAll, if_neg he]
        exact ih ⟨a, hmem, hen, hr⟩

/-- C2: if rendering any enabled app fails, the run aborts with a render
error before any filesystem write: the resulting filesystem is the input
filesystem unchanged and no reload action is dispatched. -/
theorem reload_render_failure_aborts
    (apps : List App) (render : String → Option String) (dryRun : Bool)
    (root : String) (writeOk : String → Bool) (renameOk : String → String → Bool) (fs : Fs)
    (h : ∃ app ∈ apps, app.enabled = true ∧ render app.template_path = none) :
    ∃ tpl,
      (reload apps render dryRun root writeOk renameOk fs).err = some (.renderFailed tpl) ∧
      (reload apps render dryRun root writeOk renameOk fs).fs = fs ∧
      (reload apps render dryRun root writeOk renameOk fs).dispatched = [] := by
  obtain ⟨tpl, htpl⟩ := renderAll_err h
  exact ⟨tpl, by rw [reload, htpl], by rw [reload, htpl], by rw [reload, htpl]⟩

theorem reload_render_failure_aborts_witness :
    ∃ tpl,
      (reload [⟨"A", true, "a.tpl", "a.conf", .noSignal⟩, ⟨"B", true, "b.tpl", "b.conf", .noSignal⟩]
          (fun t => if t = "b.tpl" then none else some "AAA") false "cfg"
          (fun _ => true) (fun _ _ => true)
          (fun p => if p = "cfg/a.conf" then some "old" else none)).err
        = some (.renderFailed tpl) ∧
      (reload [⟨"A", true, "a.tpl", "a.conf", .noSignal⟩, ⟨"B", true, "b.tpl", "b.conf", .noSignal⟩]
          (fun t => if t = "b.tpl" then none else some "AAA") false "cfg"
          (fun _ => true) (fun _ _ => true)
          (fun p => if p = "cfg/a.conf" then some "old" else none)).fs
        = (fun p => if p = "cfg/a.conf" then some "old" else none) ∧
      (reload [⟨"A", true, "a.tpl", "a.conf", .noSignal⟩, ⟨"B", true, "b.tpl", "b.conf", .noSignal⟩]
          (fun t => if t = "b.tpl" then none else some "AAA") false "cfg"
          (fun _ => true) (fun _ _ => true)
          (fun p => if p = "cfg/a.conf" then some "old" else none)).dispatched = [] :=
  reload_render_failure_aborts _ _ _ _ _ _ _
    ⟨⟨"B", true, "b.tpl", "b.conf", .noSignal⟩, by simp, rfl, rfl⟩

end Slate.Reload
namespace Slate.Reload

lemma stageAll_outside {root : String} {writeOk : String → Bool} :
    ∀ (renders : List (App × String)) (fs : Fs) (p : String),
      p ∉ renders.map (fun r => withExtTmp (targetOf root r.1)) →
      (stageAll root writeOk renders fs).2.1 p = fs p := by
  intro renders
  induction renders with
  | nil => intro fs p _; rfl
  | cons r rest ih =>
    intro fs p hp
    obtain ⟨app, content⟩ := r
    simp only [List.map_cons, List.mem_cons, not_or] at hp
    obtain ⟨hp1, hp2⟩ := hp
    rw [stageAll]
    by_cases hw : writeOk (withExtTmp (targetOf root app)) = true
    · simp only [if_pos hw]
      rw [ih _ p hp2]
      simp [hp1]
    · simp only [Bool.not_eq_true] at hw
      simp [hw]

lemma stageAll_err_shape {root : String} {writeOk : String → Bool} :
    ∀ (renders : List (App × String)) (fs : Fs) (e : Err),
      (stageAll root writeOk renders fs).1 = some e → ∃ p, e = .writeFailed p := by
  intro renders
  induction renders with
  | nil => intro fs e h; simp [stageAll] at h
  | cons r rest ih =>
    intro fs e h
    obtain ⟨app, content⟩ := r
    rw [stageAll] at h
    by_cases hw : writeOk (withExtTmp (targetOf root app)) = true
    · simp only [if_pos hw] at h
      exact ih _ e h
    · simp only [Bool.not_eq_true] at hw
      simp [hw] at h
      exact ⟨_, h.symm⟩

/-- C3 (amended): if a staged temporary-file write fails during a
non-dry-run deployment, the pipeline aborts with a stage-write error before
performing any rename, no reload action is dispatched, and every path other
than the enabled apps' temporary paths — in particular every destination
path that does not coincide with one of the temporary paths — retains its
prior content. -/
theorem reload_stage_failure_keeps_destinations
    (apps : List App) (render : String → Option String) (root : String)
    (writeOk : String → Bool) (renameOk : String → String → Bool) (fs : Fs)
    (renders : List (App × String)) (e : Err)
    (hrend : renderAll apps render = .ok renders)
    (hstage : (stageAll root writeOk renders fs).1 = some e) :
    (∃ p, e = .writeFailed p) ∧
    (reload apps render false root writeOk renameOk fs).err = some e ∧
    (∀ p, p ∉ renders.map (fun r => withExtTmp (targetOf root r.1)) →
      (reload apps render false root writeOk renameOk fs).fs p = fs p) ∧
    (reload apps render false root writeOk renameOk fs).dispatched = [] := by
  have key : reload apps render false root writeOk renameOk fs =
      ⟨some e, (stageAll root writeOk renders fs).2.1, []⟩ := by
    rw [reload, hrend]
    simp only [Bool.false_eq_true, if_neg (fun h => h), hstage]
  refine ⟨stageAll_err_shape renders fs e hstage, ?_, ?_, ?_⟩
  · rw [key]
  · intro p hp
    rw [key]
    exact stageAll_outside renders fs p hp
  · rw [key]

theorem reload_stage_failure_witness :
    (reload [⟨"A", true, "a.tpl", "a.conf", .noSignal⟩, ⟨"B", true, "b.tpl", "b.conf", .noSignal⟩]
        (fun t => if t = "a.tpl" then some "NEW" else some "BBB") false "cfg"
        (fun p => p ≠ "cfg/b.tmp") (fun _ _ => true)
        (fun p => if p = "cfg/a.conf" then some "old" else none)).err
      = some (.writeFailed "cfg/b.tmp") ∧
    (reload [⟨"A", true, "a.tpl", "a.conf", .noSignal⟩, ⟨"B", true, "b.tpl", "b.conf", .noSignal⟩]
        (fun t => if t = "a.tpl" then some "NEW" else some "BBB") false "cfg"
        (fun p => p ≠ "cfg/b.tmp") (fun _ _ => true)
        (fun p => if p = "cfg/a.conf" then some "old" else none)).fs "cfg/a.conf"
      = some "old" ∧
    (reload [⟨"A", true, "a.tpl", "a.conf", .noSignal⟩, ⟨"B", true, "b.tpl", "b.conf", .noSignal⟩]
        (fun t => if t = "a.tpl" then some "NEW" else some "BBB") false "cfg"
        (fun p => p ≠ "cfg/b.tmp") (fun _ _ => true)
        (fun p => if p = "cfg/a.conf" then some "old" else none)).dispatched = [] := by
  have h := reload_stage_failure_keeps_destinations
    [⟨"A", true, "a.tpl", "a.conf", .noSignal⟩, ⟨"B", true, "b.tpl", "b.conf", .noSignal⟩]
    (fun t => if t = "a.tpl" then some "NEW" else some "BBB") "cfg"
    (fun p => p ≠ "cfg/b.tmp") (fun _ _ => true)
    (fun p => if p = "cfg/a.conf" then some "old" else none)
    [(⟨"A", true, "a.tpl", "a.conf", .noSignal⟩, "NEW"),
     (⟨"B", true, "b.tpl", "b.conf", .noSignal⟩, "BBB")]
    (.writeFailed "cfg/b.tmp") rfl rfl
  exact ⟨h.2.1, (h.2.2.1 "cfg/a.conf" (by decide)).trans rfl, h.2.2.2⟩

/-- C3 counterexample: with an enabled app whose destination path already
ends in `.tmp` — so that `with_extension("tmp")` maps the destination to
itself — a failed staged write of a later app aborts the run after the
earlier staged write has already overwritten that destination: the
destination file of app A does not retain its prior content. -/
theorem reload_claim3_counterexample :
    (reload [⟨"A", true, "a.tpl", "a.tmp", .noSignal⟩, ⟨"B", true, "b.tpl", "b.conf", .noSignal⟩]
        (fun t => if t = "a.tpl" then some "NEW" else some "BBB") false "cfg"
        (fun p => p ≠ "cfg/b.tmp") (fun _ _ => true)
        (fun p => if p = "cfg/a.tmp" then some "old" else none)).err
      = some (.writeFailed "cfg/b.tmp") ∧
    targetOf "cfg" ⟨"A", true, "a.tpl", "a.tmp", .noSignal⟩ = "cfg/a.tmp" ∧
    (fun p => if p = "cfg/a.tmp" then some "old" else none : Fs) "cfg/a.tmp" = some "old" ∧
    (reload [⟨"A", true, "a.tpl", "a.tmp", .noSignal⟩, ⟨"B", true, "b.tpl", "b.conf", .noSignal⟩]
        (fun t => if t = "a.tpl" then some "NEW" else some "BBB") false "cfg"
        (fun p => p ≠ "cfg/b.tmp") (fun _ _ => true)
        (fun p => if p = "cfg/a.tmp" then some "old" else none)).fs "cfg/a.tmp"
      = some "NEW" :=
  ⟨rfl, rfl, rfl, rfl⟩

end Slate.Reload
namespace Slate.Reload

/-- C4: the failure reported for a rename that fails partway through the
commit phase is the bare rename error propagated by the failing step.  Two
runs — one in which the destination of app A has already been committed
when B's rename fails, and one in which nothing has been committed when the
same rename fails — report the identical error value, so the reported
failure does not name which destinations committed and which did not. -/
theorem reload_claim4_rename_error_lacks_commit_detail :
    (reload [⟨"A", true, "a.tpl", "a.conf", .noSignal⟩, ⟨"B", true, "b.tpl", "b.conf", .noSignal⟩]
        (fun t => if t = "a.tpl" then some "NEW" else some "BBB") false "cfg"
        (fun _ => true) (fun _ tgt => tgt ≠ "cfg/b.conf") (fun _ => none)).err
      = some (.renameFailed "cfg/b.tmp" "cfg/b.conf") ∧
    (reload [⟨"B", true, "b.tpl", "b.conf", .noSignal⟩]
        (fun t => if t = "a.tpl" then some "NEW" else some "BBB") false "cfg"
        (fun _ => true) (fun _ tgt => tgt ≠ "cfg/b.conf") (fun _ => none)).err
      = some (.renameFailed "cfg/b.tmp" "cfg/b.conf") ∧
    (reload [⟨"A", true, "a.tpl", "a.conf", .noSignal⟩, ⟨"B", true, "b.tpl", "b.conf", .noSignal⟩]
        (fun t => if t = "a.tpl" then some "NEW" else some "BBB") false "cfg"
        (fun _ => true) (fun _ tgt => tgt ≠ "cfg/b.conf") (fun _ => none)).fs "cfg/a.conf"
      = some "NEW" ∧
    (reload [⟨"B", true, "b.tpl", "b.conf", .noSignal⟩]
        (fun t => if t = "a.tpl" then some "NEW" else some "BBB") false "cfg"
        (fun _ => true) (fun _ tgt => tgt ≠ "cfg/b.conf") (fun _ => none)).fs "cfg/a.conf"
      = none ∧
    ((fun _ => none : Fs) "cfg/a.conf") = none :=
  ⟨rfl, rfl, rfl, rfl, rfl⟩

end Slate.Reload
namespace Slate.Reload

lemma dispatchLoop_countP : ∀ (l : List ReloadSignal) (seen : List String) (k : String),
    (dispatchLoop l seen).countP (fun s => sigKey s == k) =
      if l.any (fun s => !(s == ReloadSignal.noSignal) && (sigKey s == k))
          && !(decide (k ∈ seen)) then 1 else 0 := by
  intro l
  induction l with
  | nil => intro seen k; simp [dispatchLoop]
  | cons s rest ih =>
    intro seen k
    by_cases hs : s = ReloadSignal.noSignal
    · subst hs
      rw [dispatchLoop, if_pos rfl, ih seen k, List.any_cons]
      simp only [beq_self_eq_true, Bool.not_true, Bool.false_and, Bool.false_or]
    · by_cases hk : sigKey s ∈ seen
      · rw [dispatchLoop, if_neg hs, if_pos hk, ih seen k, List.any_cons]
        by_cases hsk : sigKey s = k
        · have hkk : k ∈ seen := hsk ▸ hk
          simp [hkk]
        · simp [hs, hsk]
      · rw [dispatchLoop, if_neg hs, if_neg hk, List.countP_cons, ih (sigKey s :: seen) k,
          List.any_cons]
        by_cases hsk : sigKey s = k
        · subst hsk
          simp [hs, hk, List.mem_cons]
        · have hmem : (k ∈ sigKey s :: seen) ↔ (k ∈ seen) := by
            simp [List.mem_cons, Ne.symm hsk]
          simp [hs, hsk, hmem]

lemma dispatchLoop_eq_fsd : ∀ (l : List ReloadSignal) (seen : List String),
    dispatchLoop l seen =
      firstSeenDedup (l.filter
        (fun t => !(t == ReloadSignal.noSignal) && !(decide (sigKey t ∈ seen)))) := by
  intro l
  induction l with
  | nil => intro seen; simp [dispatchLoop, firstSeenDedup]
  | cons s rest ih =>
    intro seen
    by_cases hs : s = ReloadSignal.noSignal
    · subst hs
      rw [dispatchLoop, if_pos rfl, ih seen, List.filter_cons]
      simp
    · by_cases hk : sigKey s ∈ seen
      · rw [dispatchLoop, if_neg hs, if_pos hk, ih seen, List.filter_cons]
        simp [hs, hk]
      · rw [dispatchLoop, if_neg hs, if_neg hk, ih (sigKey s :: seen), List.filter_cons]
        have hps : (!(s == ReloadSignal.noSignal) && !(decide (sigKey s ∈ seen))) = true := by
          simp [hs, hk]
        rw [if_pos hps, firstSeenDedup, List.filter_filter]
        congr 1
        congr 1
        refine List.filter_congr ?_
        intro x hx
        by_cases h1 : x = ReloadSignal.noSignal <;>
          by_cases h2 : sigKey x ∈ seen <;>
            by_cases h3 : sigKey x = sigKey s <;>
              simp [h1, h2, h3, List.mem_cons]

lemma renderAll_apps {apps : List App} {render : String → Option String}
    {renders : List (App × String)} (h : renderAll apps render = .ok renders) :
    renders.map Prod.fst = apps.filter (fun a => a.enabled) := by
  induction apps generalizing renders with
  | nil =>
    rw [renderAll] at h
    simp only [Except.ok.injEq] at h
    subst h
    rfl
  | cons app rest ih =>
    rw [renderAll] at h
    by_cases he : app.enabled = true
    · rw [if_pos he] at h
      cases hre : render app.template_path with
      | none => rw [hre] at h; exact absurd h (by simp)
      | some c =>
        rw [hre] at h
        cases hra : renderAll rest render with
        | error e => rw [hra] at h; exact absurd h (by simp [Except.map])
        | ok l =>
          rw [hra] at h
          simp only [Except.map, Except.ok.injEq] at h
          subst h
          simp [List.filter_cons, he, ih hra]
    · rw [if_neg he] at h
      simp only [Bool.not_eq_true] at he
      simp [List.filter_cons, he, ih h]

lemma reload_ok_dispatched {apps : List App} {render : String → Option String}
    {root : String} {writeOk : String → Bool} {renameOk : String → String → Bool} {fs : Fs}
    {renders : List (App × String)}
    (hrend : renderAll apps render = .ok renders)
    (hstage : (stageAll root writeOk renders fs).1 = none)
    (hcommit : (commitAll renameOk (stageAll root writeOk renders fs).2.2
        (stageAll root writeOk renders fs).2.1).1 = none) :
    (reload apps render false root writeOk renameOk fs).dispatched =
      dispatchLoop (renders.map (fun r => r.1.reload_signal)) [] := by
  rw [reload, hrend]
  simp only [Bool.false_eq_true, if_neg (fun h => h), hstage, hcommit]

end Slate.Reload
namespace Slate.Reload

/-- C5: after a successful commit, the dispatched reload actions are exactly
the first-seen deduplication, by dedup key, of the enabled apps' non-`None`
reload signals in declared order, and each distinct key present among the
enabled apps' signals is dispatched exactly once. -/
theorem reload_dispatch_dedup
    (apps : List App) (render : String → Option String) (root : String)
    (writeOk : String → Bool) (renameOk : String → String → Bool) (fs : Fs)
    (renders : List (App × String))
    (hrend : renderAll apps render = .ok renders)
    (hstage : (stageAll root writeOk renders fs).1 = none)
    (hcommit : (commitAll renameOk (stageAll root writeOk renders fs).2.2
        (stageAll root writeOk renders fs).2.1).1 = none) :
    (reload apps render false root writeOk renameOk fs).dispatched =
      firstSeenDedup (((apps.filter (fun a => a.enabled)).map (fun a => a.reload_signal)).filter
        (fun t => t ≠ ReloadSignal.noSignal)) ∧
    ∀ k, (reload apps render false root writeOk renameOk fs).dispatched.countP
        (fun s => sigKey s == k) =
      if ((apps.filter (fun a => a.enabled)).map (fun a => a.reload_signal)).any
          (fun s => !(s == ReloadSignal.noSignal) && (sigKey s == k)) then 1 else 0 := by
  have hmap : renders.map (fun r => r.1.reload_signal)
      = (apps.filter (fun a => a.enabled)).map (fun a => a.reload_signal) := by
    rw [← renderAll_apps hrend, List.map_map]
    rfl
  constructor
  · rw [reload_ok_dispatched hrend hstage hcommit, hmap, dispatchLoop_eq_fsd]
    congr 1
    refine List.filter_congr ?_
    intro t ht
    by_cases h1 : t = ReloadSignal.noSignal <;> simp [h1]
  · intro k
    rw [reload_ok_dispatched hrend hstage hcommit, hmap, dispatchLoop_countP]
    congr 1
    have hnil : (decide (k ∈ ([] : List String))) = false := by simp
    rw [hnil]
    simp

theorem reload_dispatch_dedup_witness :
    (reload [⟨"bar-style", true, "s.tpl", "s.css", .signal "bar"⟩,
             ⟨"bar-config", true, "c.tpl", "c.conf", .signal "bar"⟩]
        (fun _ => some "X") false "cfg" (fun _ => true) (fun _ _ => true)
        (fun _ => none)).dispatched
      = firstSeenDedup (((([⟨"bar-style", true, "s.tpl", "s.css", .signal "bar"⟩,
             ⟨"bar-config", true, "c.tpl", "c.conf", .signal "bar"⟩] : List App).filter
            (fun a => a.enabled)).map (fun a => a.reload_signal)).filter
          (fun t => t ≠ ReloadSignal.noSignal)) ∧
    ((reload [⟨"bar-style", true, "s.tpl", "s.css", .signal "bar"⟩,
             ⟨"bar-config", true, "c.tpl", "c.conf", .signal "bar"⟩]
        (fun _ => some "X") false "cfg" (fun _ => true) (fun _ _ => true)
        (fun _ => none)).dispatched.countP (fun s => sigKey s == "signal:bar")) = 1 ∧
    (reload [⟨"bar-style", true, "s.tpl", "s.css", .signal "bar"⟩,
             ⟨"bar-config", true, "c.tpl", "c.conf", .signal "bar"⟩]
        (fun _ => some "X") false "cfg" (fun _ => true) (fun _ _ => true)
        (fun _ => none)).dispatched = [.signal "bar"] := by
  have h := reload_dispatch_dedup
    [⟨"bar-style", true, "s.tpl", "s.css", .signal "bar"⟩,
     ⟨"bar-config", true, "c.tpl", "c.conf", .signal "bar"⟩]
    (fun _ => some "X") "cfg" (fun _ => true) (fun _ _ => true) (fun _ => none)
    [(⟨"bar-style", true, "s.tpl", "s.css", .signal "bar"⟩, "X"),
     (⟨"bar-config", true, "c.tpl", "c.conf", .signal "bar"⟩, "X")]
    rfl rfl rfl
  exact ⟨h.1, (h.2 "signal:bar").trans (by decide), rfl⟩

end Slate.Reload
namespace Slate.Sys

/-- C1: `trace_to_physical_partition` recurses with no visited set, so on a
sysfs tree in which a device lists itself as its own slave the walk never
terminates — for every fuel bound the model is still running, instead of
failing with a `SysfsEntryMissing`-class error as the claim states.  The
legitimate behaviours hold: a finite single-slave chain resolves to the
terminal physical partition, and a device with no sysfs record fails with
the sysfs-missing error. -/
theorem trace_self_slave_diverges :
    (∀ n, traceFuel cyclicWorld n "/dev/dm-0" = none) ∧
    traceFuel chainWorld 3 "/dev/mapper/root" = some (.ok "/dev/sda1") ∧
    traceFuel missingWorld 1 "/dev/sdz" = some (.error (.sysfsMissing "sdz")) := by
  refine ⟨?_, rfl, rfl⟩
  intro n
  induction n with
  | zero => rfl
  | succ m ih => exact ih

end Slate.Sys
namespace Slate.Sys

lemma scanEntries_sound {canon : String → Option String} {dir tc device name : String} :
    ∀ {entries : List (String × Option String)},
      scanEntries canon dir tc device entries = .ok name →
      ∃ t, (name, some t) ∈ entries ∧ canon (joinPath dir t) = some tc := by
  intro entries
  induction entries with
  | nil => intro h; exact absurd h (by simp [scanEntries])
  | cons p rest ih =>
    intro h
    rw [scanEntries] at h
    split at h
    · obtain ⟨t, hmem, hct⟩ := ih h
      exact ⟨t, List.mem_cons_of_mem _ hmem, hct⟩
    · next t hl =>
      split at h
      · next c hct =>
        split at h
        · next hc =>
          simp only [Except.ok.injEq] at h
          subst hc
          refine ⟨t, ?_, hct⟩
          have hp : (name, some t) = p := Prod.ext (by simp [h]) (by simp [hl])
          rw [hp]
          exact List.mem_cons_self _ _
        · obtain ⟨u, hmem, hcu⟩ := ih h
          exact ⟨u, List.mem_cons_of_mem _ hmem, hcu⟩
      · obtain ⟨u, hmem, hcu⟩ := ih h
        exact ⟨u, List.mem_cons_of_mem _ hmem, hcu⟩

lemma scanEntries_found {canon : String → Option String} {dir tc device : String} :
    ∀ {entries : List (String × Option String)},
      (∃ p ∈ entries, ∃ t, p.2 = some t ∧ canon (joinPath dir t) = some tc) →
      ∃ name, scanEntries canon dir tc device entries = .ok name := by
  intro entries
  induction entries with
  | nil => intro h; simp at h
  | cons p rest ih =>
    intro h
    rw [scanEntries]
    split
    · next hl =>
      rcases h with ⟨q, hq, t, hqt, hct⟩
      rcases List.mem_cons.mp hq with rfl | hmem
      · rw [hl] at hqt
        exact absurd hqt (by simp)
      · exact ih ⟨q, hmem, t, hqt, hct⟩
    · next t hl =>
      split
      · next c hct =>
        split
        · exact ⟨p.1, rfl⟩
        · next hc =>
          rcases h with ⟨q, hq, u, hqu, hcu⟩
          rcases List.mem_cons.mp hq with rfl | hmem
          · rw [hl] at hqu
            simp only [Option.some.injEq] at hqu
            subst hqu
            rw [hct] at hcu
            simp only [Option.some.injEq] at hcu
            exact absurd hcu hc
          · exact ih ⟨q, hmem, u, hqu, hcu⟩
      · next hct =>
        rcases h with ⟨q, hq, u, hqu, hcu⟩
        rcases List.mem_cons.mp hq with rfl | hmem
        · rw [hl] at hqu
          simp only [Option.some.injEq] at hqu
          subst hqu
          rw [hct] at hcu
          exact absurd hcu (by simp)
        · exact ih ⟨q, hmem, u, hqu, hcu⟩

lemma scanEntries_notFound {canon : String → Option String} {dir tc device : String} :
    ∀ {entries : List (String × Option String)},
      (∀ p ∈ entries, ∀ t, p.2 = some t → canon (joinPath dir t) ≠ some tc) →
      scanEntries canon dir tc device entries = .error (.idNotFound device) := by
  intro entries
  induction entries with
  | nil => intro _; rfl
  | cons p rest ih =>
    intro h
    have htail : ∀ p ∈ rest, ∀ t, p.2 = some t → canon (joinPath dir t) ≠ some tc :=
      fun q hq => h q (List.mem_cons_of_mem _ hq)
    rw [scanEntries]
    split
    · exact ih htail
    · next t hl =>
      split
      · next c hct =>
        have hne := h p (List.mem_cons_self _ _) t hl
        have hc : ¬c = tc := by
          intro e
          subst e
          exact hne hct
        rw [if_neg hc]
        exact ih htail
      · exact ih htail

/-- C8: `resolve_stable_id` canonicalizes the queried device; a returned
filename is one whose entry's link target, resolved relative to the
namespace directory and canonicalized, equals the canonical device path; a
matching entry guarantees some filename is returned; with no matching entry
it fails with the id-not-found error; and when the namespace directory does
not exist it fails with the directory-missing error for every entry list
and every canonicalizer, i.e. without scanning any entries. -/
theorem resolveStableId_spec
    (canon : String → Option String) (entries : List (String × Option String))
    (dir device tc : String) (hc : canon device = some tc) :
    (∀ name, resolveStableId true canon entries dir device = .ok name →
      ∃ t, (name, some t) ∈ entries ∧ canon (joinPath dir t) = some tc) ∧
    ((∃ p ∈ entries, ∃ t, p.2 = some t ∧ canon (joinPath dir t) = some tc) →
      ∃ name, resolveStableId true canon entries dir device = .ok name) ∧
    ((∀ p ∈ entries, ∀ t, p.2 = some t → canon (joinPath dir t) ≠ some tc) →
      resolveStableId true canon entries dir device = .error (.idNotFound device)) ∧
    (∀ (entries2 : List (String × Option String)) (canon2 : String → Option String),
      resolveStableId false canon2 entries2 dir device = .error .dirMissing) := by
  have hres : resolveStableId true canon entries dir device =
      scanEntries canon dir tc device entries := by
    rw [resolveStableId]
    simp [hc]
  refine ⟨?_, ?_, ?_, fun entries2 canon2 => rfl⟩
  · intro name h
    rw [hres] at h
    exact scanEntries_sound h
  · intro h
    rw [hres]
    exact scanEntries_found h
  · intro h
    rw [hres]
    exact scanEntries_notFound h

theorem resolveStableId_spec_witness :
    resolveStableId true
      (fun p => if p = "/dev/sda1" then some "/dev/sda1"
        else if p = "/dev/disk/by-uuid/../../sda1" then some "/dev/sda1" else none)
      [("UUID1", some "../../sda1")] "/dev/disk/by-uuid" "/dev/sda1" = .ok "UUID1" ∧
    resolveStableId false (fun _ => none) [] "/dev/disk/by-uuid" "/dev/sda1"
      = .error .dirMissing := by
  have h := resolveStableId_spec
    (fun p => if p = "/dev/sda1" then some "/dev/sda1"
      else if p = "/dev/disk/by-uuid/../../sda1" then some "/dev/sda1" else none)
    [("UUID1", some "../../sda1")] "/dev/disk/by-uuid" "/dev/sda1" "/dev/sda1" rfl
  refine ⟨?_, h.2.2.2 [] (fun _ => none)⟩
  rfl

end Slate.Sys
namespace Slate.SetCfg

/-- C9: the unknown-key bail message does not list all valid keys:
`palette.bg_void_transparent` is accepted by the `set` dispatch, yet is
absent from the key list carried by the unknown-key error; the untouched
parts of the claim hold — an unknown key is rejected with the listed keys
and the filesystem is returned unchanged, before any save or reload. -/
theorem set_unknownKey_message_omits_valid_key :
    setKey (fun _ => some ()) sampleConfig "palette.bg_void_transparent" "#000000ee"
      = .ok { sampleConfig with palette :=
          { sampleConfig.palette with bg_void_transparent := "#000000ee" } } ∧
    "palette.bg_void_transparent" ∉ listedValidKeys ∧
    setKey (fun _ => some ()) sampleConfig "colors.accent" "#ffffff"
      = .error (.unknownKey "colors.accent" listedValidKeys) ∧
    setCmd (fun _ => some ()) (fun _ => some sampleConfig)
        (fun _ _ => fun _ => some "SAVED") (fun fs => (none, fs))
        (fun _ => none) "colors.accent" "#ffffff" false
      = (some (.keyErr (.unknownKey "colors.accent" listedValidKeys)), (fun _ => none : Fs)) :=
  ⟨rfl, by decide, rfl, rfl⟩

/-- C10: `set` on `palette.mode` succeeds only for the values `manual` and
`matugen`; any other value is rejected before any mutation, save or reload
— the command returns the filesystem unchanged for every loader, saver and
reload collaborator — while another palette string field accepts that same
arbitrary value. -/
theorem set_palette_mode_restricted {Scale : Type} (parseScale : String → Option Scale)
    (config : SlateConfig Scale) (v : String)
    (h1 : v ≠ "manual") (h2 : v ≠ "matugen") :
    setKey parseScale config "palette.mode" v = .error .invalidMode ∧
    (∀ (load : Fs → Option (SlateConfig Scale)) (save : SlateConfig Scale → Fs → Fs)
        (doReload : Fs → Option SetCmdErr × Fs) (fs : Fs) (dryRun : Bool),
      load fs = some config →
      setCmd parseScale load save doReload fs "palette.mode" v dryRun
        = (some (.keyErr .invalidMode), fs)) ∧
    setKey parseScale config "palette.mode" "manual"
      = .ok { config with palette := { config.palette with mode := "manual" } } ∧
    setKey parseScale config "palette.mode" "matugen"
      = .ok { config with palette := { config.palette with mode := "matugen" } } ∧
    setKey parseScale config "palette.accent" v
      = .ok { config with palette := { config.palette with accent := v } } := by
  have e1 : setKey parseScale config "palette.mode" v
      = if v ≠ "manual" ∧ v ≠ "matugen" then .error .invalidMode
        else .ok { config with palette := { config.palette with mode := v } } := rfl
  have emode : setKey parseScale config "palette.mode" v = .error .invalidMode := by
    rw [e1, if_pos ⟨h1, h2⟩]
  refine ⟨emode, ?_, ?_, ?_, rfl⟩
  · intro load save doReload fs dryRun hload
    rw [setCmd, hload]
    simp only [emode]
  · have e2 : setKey parseScale config "palette.mode" "manual"
        = if ("manual" : String) ≠ "manual" ∧ ("manual" : String) ≠ "matugen" then
            Except.error SetErr.invalidMode
          else .ok { config with palette := { config.palette with mode := "manual" } } := rfl
    rw [e2]
    simp
  · have e3 : setKey parseScale config "palette.mode" "matugen"
        = if ("matugen" : String) ≠ "manual" ∧ ("matugen" : String) ≠ "matugen" then
            Except.error SetErr.invalidMode
          else .ok { config with palette := { config.palette with mode := "matugen" } } := rfl
    rw [e3]
    simp

theorem set_palette_mode_restricted_witness :
    setKey (fun _ => some ()) sampleConfig "palette.mode" "auto" = .error .invalidMode ∧
    setCmd (fun _ => some ()) (fun _ => some sampleConfig) (fun _ fs => fs)
        (fun fs => (none, fs)) (fun _ => none) "palette.mode" "auto" false
      = (some (.keyErr .invalidMode), (fun _ => none : Fs)) ∧
    setKey (fun _ => some ()) sampleConfig "palette.mode" "manual"
      = .ok { sampleConfig with palette := { sampleConfig.palette with mode := "manual" } } ∧
    setKey (fun _ => some ()) sampleConfig "palette.accent" "auto"
      = .ok { sampleConfig with palette := { sampleConfig.palette with accent := "auto" } } := by
  have h := set_palette_mode_restricted (fun _ => some ()) sampleConfig "auto"
    (by decide) (by decide)
  exact ⟨h.1, h.2.1 _ _ _ _ false rfl, h.2.2.1, h.2.2.2.2⟩

end Slate.SetCfg
